import Mathlib

/-!
# Divine Court WASP defense system — verification of the core components

Shallow embedding of the two core components of the repository:

* the per-key admission decision actor (`RateLimiter.fetch` in
  `src/wasp-edge/src/index.ts`), modelled as the pure state-transition
  function `rateLimitStep` over `BucketState`;
* the case-ingestor queue consumer (`queue`, `upsertCase`,
  `recomputeMetrics` in `src/case-ingestor/src/index.ts`), modelled as
  pure functions over an explicit relational state `DB`.

Timestamps are integers (JavaScript `Date.now()` values); request scores
are rationals (JavaScript numbers used with exact small-integer
arithmetic); the `mercy` sigmoid uses `Real.exp` and is the only
non-executable value, kept in its own field so that every metric a claim
tests numerically remains computable.
-/

namespace DivineCourt

/-- The four verdicts of the admission actor
(`'allow'|'challenge'|'tarpit'|'block'` in the source). -/
inductive Action where
  | allow
  | challenge
  | tarpit
  | block
deriving DecidableEq, Repr

/-- Per-identity-key actor state, as stored by the Durable Object:
`{ hits: 0, window: now, score: 0, lastUA: '' }`. -/
structure BucketState where
  hits : ℕ
  window : ℤ
  score : ℚ
  lastUA : String
deriving Repr

/-- The state lazily created on first evaluation for a key
(`?? { hits: 0, window: now, score: 0, lastUA: '' }`). -/
def initBucket (now : ℤ) : BucketState :=
  { hits := 0, window := now, score := 0, lastUA := "" }

/-- The verdict body returned by the Durable Object:
`{ action, score: b.score, hits: b.hits }`. -/
structure Verdict where
  action : Action
  score : ℚ
  hits : ℕ
deriving DecidableEq, Repr

/-- The heuristic delta accumulation of `RateLimiter.fetch`, line by line:
`let delta = 0;` followed by the five guarded `delta +=` statements.
`api` is `path.startsWith('/api/')`, `write` is
`method !== 'GET' && method !== 'HEAD'`, and `hits` is the counter after
the window reset and increment of the same evaluation. -/
def deltaOf (api write : Bool) (ua lastUA : String) (hits : ℕ) : ℚ :=
  let d : ℚ := 0
  let d := if api && decide (15 < hits) then d + 2 else d
  let d := if !api && decide (35 < hits) then d + 1 else d
  let d := if ua == "" || ua == "-" then d + 1 else d
  let d := if write && decide (5 < hits) then d + 2 else d
  let d := if lastUA != "" && lastUA != ua then d + 1 else d
  d

/-- The hits counter after the tumbling-window reset and the `b.hits++`
increment of one evaluation at time `now`. -/
def hitsAfter (now : ℤ) (b : BucketState) : ℕ :=
  (if 1000 < now - b.window then 0 else b.hits) + 1

/-- One evaluation of the admission actor: the body of
`RateLimiter.fetch` in `src/wasp-edge/src/index.ts`, given the parsed
request `{ ua, path, method, trustedCookie }` and `now = Date.now()`.
Returns the persisted state and the verdict. -/
def rateLimitStep (now : ℤ) (ua path method : String) (trustedCookie : Bool)
    (b : BucketState) : BucketState × Verdict :=
  let b := if 1000 < now - b.window then { b with hits := 0, window := now } else b
  let b := { b with hits := b.hits + 1 }
  let api := path.startsWith "/api/"
  let write := method != "GET" && method != "HEAD"
  let delta := deltaOf api write ua b.lastUA b.hits
  let b := { b with lastUA := ua }
  let b := { b with score := max 0 (b.score + delta - 1) }
  let action :=
    if trustedCookie then Action.allow
    else if 120 < b.hits ∨ 12 < b.score then Action.block
    else if 70 < b.hits ∨ 8 < b.score then Action.tarpit
    else if 30 < b.hits ∨ 5 < b.score then Action.challenge
    else Action.allow
  (b, { action := action, score := b.score, hits := b.hits })

/-- Reachability: `ReachableAt b t` states that actor state `b` is reachable, with `t` the time of
the evaluation (or lazy initialization) that produced it; evaluation
times are monotone because `Date.now()` is. -/
inductive ReachableAt : BucketState → ℤ → Prop where
  | init (now : ℤ) : ReachableAt (initBucket now) now
  | step (b : BucketState) (t now : ℤ) (ua path method : String)
      (trustedCookie : Bool) :
      ReachableAt b t → t ≤ now →
      ReachableAt (rateLimitStep now ua path method trustedCookie b).1 now

/-- A verdict event message as sent to the queue by the edge worker and
consumed by the case ingestor (`EventMsg` in
`src/case-ingestor/src/index.ts`). -/
structure EventMsg where
  ts : ℤ
  ip : String
  asn : ℤ
  country : String
  ua : String
  path : String
  method : String
  action : String
  score : ℚ
  hits : ℕ
  zone : String
  colo : String

/-- A row of the `events` table (`schema.sql`). -/
structure EventRow where
  case_id : ℕ
  ts : ℤ
  path : String
  method : String
  ua : String
  action : String
  score : ℚ
  hits : ℕ
  colo : String
deriving DecidableEq, Repr

/-- A row of the `cases` table (`schema.sql`).  `id` is modelled as a
natural number drawn from a fresh-id counter in place of
`crypto.randomUUID()`. -/
structure CaseRow where
  id : ℕ
  key : String
  zone : String
  ip : String
  asn : ℤ
  country : String
  first_seen : ℤ
  last_seen : ℤ
  status : String
  attack_rps : ℚ
  est_bandwidth_mbps : ℚ
  system_capacity_rps : ℚ
  af : ℚ
  df : ℚ
  bof : ℚ
  evidence_count : ℤ
  mercy : ℝ
  justice : ℚ
  abuse_report : Option String
  section504_draft : Option String

/-- The D1 database state: the `cases` and `events` tables plus the
fresh-id counter standing in for `crypto.randomUUID()`. -/
structure DB where
  cases : List CaseRow
  events : List EventRow
  nextId : ℕ

/-- The case key derived in `upsertCase`:
`` `${e.zone}:${e.ip}:${e.asn}` ``. -/
def caseKey (e : EventMsg) : String :=
  e.zone ++ ":" ++ e.ip ++ ":" ++ toString e.asn

/-- A freshly inserted case row: the `INSERT INTO cases` of `upsertCase`
fills `id, key, zone, ip, asn, country, first_seen = last_seen = e.ts,
status = 'OPEN'`; the remaining columns take the defaults of
`schema.sql` (`BoF 1`, `mercy 0.5`, `justice 0.5`, reports NULL, other
metrics 0). -/
noncomputable def newCaseRow (id : ℕ) (e : EventMsg) : CaseRow :=
  { id := id, key := caseKey e, zone := e.zone, ip := e.ip, asn := e.asn,
    country := e.country, first_seen := e.ts, last_seen := e.ts,
    status := "OPEN", attack_rps := 0, est_bandwidth_mbps := 0,
    system_capacity_rps := 0, af := 0, df := 0, bof := 1,
    evidence_count := 0, mercy := 0.5, justice := 0.5,
    abuse_report := none, section504_draft := none }

/-- The function `upsertCase` of `src/case-ingestor/src/index.ts`: look up the case
by key; if found, set `last_seen = e.ts` on that row and return its id,
otherwise insert a new row and return the fresh id. -/
noncomputable def upsertCase (db : DB) (e : EventMsg) : DB × ℕ :=
  match db.cases.find? (fun c => c.key == caseKey e) with
  | some c =>
      ({ db with
          cases := db.cases.map (fun r =>
            if r.id == c.id then { r with last_seen := e.ts } else r) },
        c.id)
  | none =>
      ({ db with
          cases := db.cases ++ [newCaseRow db.nextId e],
          nextId := db.nextId + 1 },
        db.nextId)

/-- The `INSERT INTO events` row built from a message and the owning
case id. -/
def eventRowOf (caseId : ℕ) (e : EventMsg) : EventRow :=
  { case_id := caseId, ts := e.ts, path := e.path, method := e.method,
    ua := e.ua, action := e.action, score := e.score, hits := e.hits,
    colo := e.colo }

/-- The aggregation window length: `const windowMs = 60_000`. -/
def windowMs : ℤ := 60000

/-- The configured origin capacity: `const capacityRPS = 500` (the
source comment marks it as tunable, so the aggregation is stated over an
arbitrary capacity and this constant instantiates it). -/
def systemCapacityRPS : ℚ := 500

/-- The window query of `recomputeMetrics`:
`SELECT … FROM events WHERE case_id=?1 AND ts>=?2` with `?2 = now -
60000` (the metrics are order-independent, so the `ORDER BY ts` of the
query is immaterial). -/
def windowRows (events : List EventRow) (caseId : ℕ) (fromTs : ℤ) :
    List EventRow :=
  events.filter (fun r => r.case_id == caseId && decide (fromTs ≤ r.ts))

/-- Count of window rows with the given action, as in
`rows.results.filter(r => r.action === a).length`. -/
def countAction (rows : List EventRow) (a : String) : ℕ :=
  (rows.filter (fun r => r.action == a)).length

/-- The mean event score over the window:
`n ? rows.reduce((s,r) => s + r.score, 0) / n : 0`. -/
def avgScoreOf (rows : List EventRow) : ℚ :=
  if rows.length ≠ 0
  then rows.foldl (fun s r => s + r.score) 0 / rows.length
  else 0

/-- The severity-weighted non-allow count:
`challenged*0.6 + tarpitted*0.9 + blocked*1.0`. -/
def weightedOf (rows : List EventRow) : ℚ :=
  countAction rows "challenge" * 0.6 + countAction rows "tarpit" * 0.9 +
    countAction rows "block" * 1.0

/-- The mercy sigmoid `1 / (1 + Math.exp(avgScore - 6))`. -/
noncomputable def mercyOf (avgScore : ℚ) : ℝ :=
  1 / (1 + Real.exp ((avgScore : ℝ) - 6))

/-- The metrics object returned by `recomputeMetrics`. -/
structure Metrics where
  attack_rps : ℚ
  bandwidth_mbps : ℚ
  capacity_rps : ℚ
  af : ℚ
  df : ℚ
  bof : ℚ
  ef : ℤ
  mercy : ℝ
  justice : ℚ

/-- The function `recomputeMetrics` of `src/case-ingestor/src/index.ts`, with the
hard-coded tunable `capacityRPS` abstracted as a parameter (JavaScript
number arithmetic is embedded as exact rational arithmetic; the
`allowed` count of the source is computed but never used, so it is
omitted). -/
noncomputable def recomputeMetricsWith (capacityRPS : ℚ) (now : ℤ)
    (events : List EventRow) (caseId : ℕ) : Metrics :=
  let rows := windowRows events caseId (now - windowMs)
  let n := rows.length
  let rps : ℚ := n / 60
  let estBandwidthMbps := rps * 2 * 8 / 1024
  let af := if 0 < capacityRPS then rps / capacityRPS else 0
  let challenged := countAction rows "challenge"
  let tarpitted := countAction rows "tarpit"
  let blocked := countAction rows "block"
  let df := weightedOf rows / 60
  let bof := if 0 < af then df / af else 1
  let avgScore := avgScoreOf rows
  let ef := round ((n : ℚ) + avgScore * 3)
  let nonAllow : ℚ :=
    if n ≠ 0 then ((challenged + tarpitted + blocked : ℕ) : ℚ) / n else 0
  let justice := max 0 (min 1 (nonAllow + avgScore / 12))
  { attack_rps := rps, bandwidth_mbps := estBandwidthMbps,
    capacity_rps := capacityRPS, af := af, df := df, bof := bof,
    ef := ef, mercy := mercyOf avgScore, justice := justice }

/-- The source's `recomputeMetrics` with its capacity constant of 500. -/
noncomputable def recomputeMetrics (now : ℤ) (events : List EventRow)
    (caseId : ℕ) : Metrics :=
  recomputeMetricsWith systemCapacityRPS now events caseId

/-- The materialization trigger of the queue consumer:
`metrics.ef >= 50 || metrics.af >= 1 || metrics.bof < 1`. -/
def shouldMaterialize (m : Metrics) : Prop :=
  50 ≤ m.ef ∨ 1 ≤ m.af ∨ m.bof < 1

instance (m : Metrics) : Decidable (shouldMaterialize m) := by
  unfold shouldMaterialize
  infer_instance

/-- The database state after steps 1 and 2 of one loop iteration of the
queue consumer: the case upsert and the event insert. -/
noncomputable def dbAfterInsert (db : DB) (e : EventMsg) : DB :=
  let p := upsertCase db e
  { p.1 with events := p.1.events ++ [eventRowOf p.2 e] }

/-- One iteration of the queue consumer's loop (`queue` in
`src/case-ingestor/src/index.ts`): upsert the case, insert the event,
recompute metrics, and when the trigger passes update the case snapshot
(last_seen, status and every metric and report field) in one `UPDATE`.
The external report builders are passed in as parameters `abuseFn`
(`buildAbuseReport`, taking the zone) and `s504Fn`
(`buildSection504Draft`). -/
noncomputable def processMessage (abuseFn : String → Metrics → String)
    (s504Fn : Metrics → String) (now : ℤ) (db : DB) (e : EventMsg) : DB :=
  let caseId := (upsertCase db e).2
  let db1 := dbAfterInsert db e
  let m := recomputeMetrics now db1.events caseId
  if shouldMaterialize m then
    { db1 with
        cases := db1.cases.map (fun r =>
          if r.id == caseId then
            { r with
                last_seen := now, status := "OPEN",
                attack_rps := m.attack_rps,
                est_bandwidth_mbps := m.bandwidth_mbps,
                system_capacity_rps := m.capacity_rps,
                af := m.af, df := m.df, bof := m.bof,
                evidence_count := m.ef, mercy := m.mercy,
                justice := m.justice,
                abuse_report := some (abuseFn e.zone m),
                section504_draft := some (s504Fn m) }
          else r) }
  else db1

/-- The metrics recomputed in step 3 of one loop iteration, over the
events table that already contains the just-inserted event. -/
noncomputable def ingestedMetrics (now : ℤ) (db : DB) (e : EventMsg) :
    Metrics :=
  recomputeMetrics now (dbAfterInsert db e).events (upsertCase db e).2

/-- Observable actions of the queue consumer: processing of the `i`-th
message of the batch, and its explicit `msg.ack()`. -/
inductive QAct where
  | process (i : ℕ)
  | ack (i : ℕ)
deriving DecidableEq, Repr

/-- The batch loop of the queue consumer, with `i` the index of the
first remaining message: each iteration processes one message and then
calls `msg.ack()` on it, recorded in an observation trace. -/
noncomputable def queueHandlerAux (abuseFn : String → Metrics → String)
    (s504Fn : Metrics → String) (now : ℤ) :
    DB → ℕ → List EventMsg → DB × List QAct
  | db, _, [] => (db, [])
  | db, i, e :: rest =>
      let db1 := processMessage abuseFn s504Fn now db e
      let res := queueHandlerAux abuseFn s504Fn now db1 (i + 1) rest
      (res.1, QAct.process i :: QAct.ack i :: res.2)

/-- The whole `queue` handler on one batch. -/
noncomputable def queueHandler (abuseFn : String → Metrics → String)
    (s504Fn : Metrics → String) (now : ℤ) (db : DB)
    (msgs : List EventMsg) : DB × List QAct :=
  queueHandlerAux abuseFn s504Fn now db 0 msgs

/-- The per-message acknowledgment shape: process 0, ack 0, process 1,
ack 1, … starting at index `i` for `k` messages. -/
def ackPattern : ℕ → ℕ → List QAct
  | _, 0 => []
  | i, k + 1 => QAct.process i :: QAct.ack i :: ackPattern (i + 1) k

/-- The empty database. -/
def emptyDB : DB := { cases := [], events := [], nextId := 0 }

/-- A sample verdict event message. -/
def msgA : EventMsg :=
  { ts := 0, ip := "203.0.113.7", asn := 64496, country := "CA",
    ua := "curl", path := "/", method := "GET", action := "allow",
    score := 0, hits := 1, zone := "example.com", colo := "YYZ" }

/-- A second sample message from a different source address. -/
def msgB : EventMsg := { msgA with ip := "203.0.113.8" }

/-- A database already holding the case row of `msgA`. -/
noncomputable def sampleDB : DB :=
  { cases := [newCaseRow 0 msgA], events := [], nextId := 1 }

/-- A sample window event with action `block` and score 10. -/
def blockEvent : EventRow :=
  { case_id := 0, ts := 0, path := "/", method := "GET", ua := "curl",
    action := "block", score := 10, hits := 100, colo := "YYZ" }

/-- A sample window event with action `allow` and score 10. -/
def allowEvent : EventRow := { blockEvent with action := "allow" }

/-- The 50-event window of the spec's numeric example: 30 blocked and 20
allowed events, all with score 10. -/
def sampleWindow : List EventRow :=
  List.replicate 30 blockEvent ++ List.replicate 20 allowEvent

lemma rateLimitStep_window (now : ℤ) (ua path method : String)
    (trustedCookie : Bool) (b : BucketState) :
    (rateLimitStep now ua path method trustedCookie b).1.window =
      if 1000 < now - b.window then now else b.window := by
  by_cases h : 1000 < now - b.window <;> simp [rateLimitStep, h]

lemma rateLimitStep_hits (now : ℤ) (ua path method : String)
    (trustedCookie : Bool) (b : BucketState) :
    (rateLimitStep now ua path method trustedCookie b).1.hits =
      hitsAfter now b := by
  by_cases h : 1000 < now - b.window <;> simp [rateLimitStep, hitsAfter, h]

lemma rateLimitStep_score (now : ℤ) (ua path method : String)
    (trustedCookie : Bool) (b : BucketState) :
    (rateLimitStep now ua path method trustedCookie b).1.score =
      max 0 (b.score +
        deltaOf (path.startsWith "/api/")
          (method != "GET" && method != "HEAD") ua b.lastUA
          (hitsAfter now b) - 1) := by
  by_cases h : 1000 < now - b.window <;> simp [rateLimitStep, hitsAfter, h]

/-- On every reachable state the stored window start is no later than the
time of the evaluation that produced the state. -/
lemma ReachableAt.window_le {b : BucketState} {t : ℤ}
    (h : ReachableAt b t) : b.window ≤ t := by
  induction h with
  | init now => exact le_refl now
  | step b t now ua path method trustedCookie _ hle ih =>
      rw [rateLimitStep_window]
      split
      · exact le_refl now
      · exact le_trans ih hle

/-- C1: on every evaluation of the admission actor, if `trusted` is true
the returned action is `allow` unconditionally; otherwise the thresholds
are applied in order of severity — `block` if hits>120 or score>12, else
`tarpit` if hits>70 or score>8, else `challenge` if hits>30 or score>5,
else `allow` — with hits and score the values returned by the same
evaluation (the state after window reset, increment, delta and decay). -/
theorem admission_action_thresholds (now : ℤ) (ua path method : String)
    (trustedCookie : Bool) (b : BucketState) :
    (rateLimitStep now ua path method trustedCookie b).2.action =
      (if trustedCookie then Action.allow
       else if 120 < (rateLimitStep now ua path method trustedCookie b).2.hits
              ∨ 12 < (rateLimitStep now ua path method trustedCookie b).2.score
         then Action.block
       else if 70 < (rateLimitStep now ua path method trustedCookie b).2.hits
              ∨ 8 < (rateLimitStep now ua path method trustedCookie b).2.score
         then Action.tarpit
       else if 30 < (rateLimitStep now ua path method trustedCookie b).2.hits
              ∨ 5 < (rateLimitStep now ua path method trustedCookie b).2.score
         then Action.challenge
       else Action.allow) ∧
    (rateLimitStep now ua path method trustedCookie b).2.hits =
      (rateLimitStep now ua path method trustedCookie b).1.hits ∧
    (rateLimitStep now ua path method trustedCookie b).2.score =
      (rateLimitStep now ua path method trustedCookie b).1.score :=
  ⟨rfl, rfl, rfl⟩

/-- C2: the hits counter follows a tumbling window: when the current
evaluation's time minus the stored window start exceeds 1000ms, hits
resets to 0 and the window start is set to `now` before the increment
(so the stored counter is 1); otherwise hits increments by exactly 1 and
the window start is unchanged.  Consequently two evaluations more than
1000ms apart see hits reset, because on every reachable state the window
start is no later than the previous evaluation's time. -/
theorem tumbling_window_hits (now t : ℤ) (ua path method : String)
    (trustedCookie : Bool) (b : BucketState) :
    (1000 < now - b.window →
       (rateLimitStep now ua path method trustedCookie b).1.hits = 1 ∧
       (rateLimitStep now ua path method trustedCookie b).1.window = now) ∧
    (now - b.window ≤ 1000 →
       (rateLimitStep now ua path method trustedCookie b).1.hits = b.hits + 1 ∧
       (rateLimitStep now ua path method trustedCookie b).1.window = b.window) ∧
    (ReachableAt b t → t + 1000 < now →
       (rateLimitStep now ua path method trustedCookie b).1.hits = 1) := by
  refine ⟨fun h => ?_, fun h => ?_, fun hr hgap => ?_⟩
  · rw [rateLimitStep_hits, rateLimitStep_window, hitsAfter, if_pos h, if_pos h]
    exact ⟨rfl, rfl⟩
  · rw [rateLimitStep_hits, rateLimitStep_window, hitsAfter,
      if_neg (not_lt.mpr h), if_neg (not_lt.mpr h)]
    exact ⟨rfl, rfl⟩
  · have hw : b.window ≤ t := hr.window_le
    have : 1000 < now - b.window := by omega
    rw [rateLimitStep_hits, hitsAfter, if_pos this]

/-- C3: after every evaluation the score is updated as
`score = max(0, score + delta - 1)` (delta computed on the
post-increment hits and the previous user agent), and on every reachable
actor state the score is non-negative: it starts at 0 and the clamp at 0
is preserved by each step. -/
theorem score_decay_clamped_nonneg :
    (∀ (now : ℤ) (ua path method : String) (trustedCookie : Bool)
       (b : BucketState),
       (rateLimitStep now ua path method trustedCookie b).1.score =
         max 0 (b.score +
           deltaOf (path.startsWith "/api/")
             (method != "GET" && method != "HEAD") ua b.lastUA
             (hitsAfter now b) - 1)) ∧
    (∀ (b : BucketState) (t : ℤ), ReachableAt b t → 0 ≤ b.score) := by
  refine ⟨rateLimitStep_score, fun b t hr => ?_⟩
  induction hr with
  | init now => exact le_refl 0
  | step b t now ua path method trustedCookie _ _ _ =>
      rw [rateLimitStep_score]
      exact le_max_left 0 _

/-- C4: the heuristic delta of one evaluation is the sum of exactly the
five additive contributions of the source — +2 for an `/api/` path with
hits>15, +1 for a non-`/api/` path with hits>35, +1 for an empty or
placeholder user agent, +2 for a mutating method with hits>5, and +1 for
a user agent differing from a non-empty previous one — and no other
condition contributes, so `0 ≤ delta ≤ 7`. -/
theorem heuristic_delta_additive (api write : Bool) (ua lastUA : String)
    (hits : ℕ) :
    deltaOf api write ua lastUA hits =
        (if api && decide (15 < hits) then (2 : ℚ) else 0)
      + (if !api && decide (35 < hits) then 1 else 0)
      + (if ua == "" || ua == "-" then 1 else 0)
      + (if write && decide (5 < hits) then 2 else 0)
      + (if lastUA != "" && lastUA != ua then 1 else 0) ∧
    0 ≤ deltaOf api write ua lastUA hits ∧
    deltaOf api write ua lastUA hits ≤ 7 := by
  unfold deltaOf
  split_ifs <;> norm_num

/-- Concrete instantiation of `tumbling_window_hits`: from the freshly
initialized state at time 0, an evaluation at time 2000 resets the
window (hits becomes 1, window 2000), an evaluation at time 500 does not
(hits becomes 1 by increment from 0, window stays 0), and the
reachability-based reset conclusion applies at time 2000. -/
theorem tumbling_window_hits_witness :
    ((rateLimitStep 2000 "u" "/" "GET" false (initBucket 0)).1.hits = 1 ∧
     (rateLimitStep 2000 "u" "/" "GET" false (initBucket 0)).1.window = 2000) ∧
    ((rateLimitStep 500 "u" "/" "GET" false (initBucket 0)).1.hits =
       (initBucket 0).hits + 1 ∧
     (rateLimitStep 500 "u" "/" "GET" false (initBucket 0)).1.window =
       (initBucket 0).window) ∧
    (rateLimitStep 2000 "u" "/" "GET" false (initBucket 0)).1.hits = 1 := by
  refine ⟨?_, ?_, ?_⟩
  · exact (tumbling_window_hits 2000 0 "u" "/" "GET" false (initBucket 0)).1
      (by decide)
  · exact (tumbling_window_hits 500 0 "u" "/" "GET" false (initBucket 0)).2.1
      (by decide)
  · exact (tumbling_window_hits 2000 0 "u" "/" "GET" false (initBucket 0)).2.2
      (ReachableAt.init 0) (by decide)

/-- Concrete instantiation of `score_decay_clamped_nonneg`: the decay
equation evaluated at one concrete step from the initial state, and
non-negativity of the initial state's score. -/
theorem score_decay_clamped_nonneg_witness :
    (rateLimitStep 5 "ua" "/api/x" "POST" false (initBucket 0)).1.score =
      max 0 ((initBucket 0).score +
        deltaOf ("/api/x".startsWith "/api/")
          ("POST" != "GET" && "POST" != "HEAD") "ua" (initBucket 0).lastUA
          (hitsAfter 5 (initBucket 0)) - 1) ∧
    0 ≤ (initBucket 0).score := by
  constructor
  · exact score_decay_clamped_nonneg.1 5 "ua" "/api/x" "POST" false (initBucket 0)
  · exact score_decay_clamped_nonneg.2 (initBucket 0) 0 (ReachableAt.init 0)

lemma recompute_attack_rps (capacityRPS : ℚ) (now : ℤ)
    (events : List EventRow) (caseId : ℕ) :
    (recomputeMetricsWith capacityRPS now events caseId).attack_rps =
      ((windowRows events caseId (now - windowMs)).length : ℚ) / 60 := rfl

lemma recompute_af (capacityRPS : ℚ) (now : ℤ) (events : List EventRow)
    (caseId : ℕ) :
    (recomputeMetricsWith capacityRPS now events caseId).af =
      if 0 < capacityRPS
      then ((windowRows events caseId (now - windowMs)).length : ℚ) / 60 /
        capacityRPS
      else 0 := rfl

lemma recompute_df (capacityRPS : ℚ) (now : ℤ) (events : List EventRow)
    (caseId : ℕ) :
    (recomputeMetricsWith capacityRPS now events caseId).df =
      weightedOf (windowRows events caseId (now - windowMs)) / 60 := rfl

lemma recompute_bof (capacityRPS : ℚ) (now : ℤ) (events : List EventRow)
    (caseId : ℕ) :
    (recomputeMetricsWith capacityRPS now events caseId).bof =
      if 0 < (recomputeMetricsWith capacityRPS now events caseId).af
      then (recomputeMetricsWith capacityRPS now events caseId).df /
        (recomputeMetricsWith capacityRPS now events caseId).af
      else 1 := rfl

lemma countAction_eq_zero {rows : List EventRow} {a : String}
    (h : ∀ r ∈ rows, ¬ r.action = a) : countAction rows a = 0 := by
  unfold countAction
  rw [List.length_eq_zero, List.filter_eq_nil_iff]
  intro r hr
  simpa using h r hr

lemma recompute_ef (capacityRPS : ℚ) (now : ℤ) (events : List EventRow)
    (caseId : ℕ) :
    (recomputeMetricsWith capacityRPS now events caseId).ef =
      round (((windowRows events caseId (now - windowMs)).length : ℚ) +
        avgScoreOf (windowRows events caseId (now - windowMs)) * 3) := rfl

lemma foldl_score_replicate (k : ℕ) (r : EventRow) (init : ℚ) :
    (List.replicate k r).foldl (fun s x => s + x.score) init =
      init + k * r.score := by
  induction k generalizing init with
  | zero => simp
  | succ k ih =>
      rw [List.replicate_succ, List.foldl_cons, ih]
      push_cast
      ring

lemma weightedOf_eq_zero {rows : List EventRow}
    (h : ∀ r ∈ rows, r.action = "allow") : weightedOf rows = 0 := by
  unfold weightedOf
  rw [countAction_eq_zero (a := "challenge") (fun r hr => by rw [h r hr]; decide),
    countAction_eq_zero (a := "tarpit") (fun r hr => by rw [h r hr]; decide),
    countAction_eq_zero (a := "block") (fun r hr => by rw [h r hr]; decide)]
  norm_num

lemma allow_window_core (now : ℤ) (events : List EventRow) (caseId : ℕ)
    (hne : windowRows events caseId (now - windowMs) ≠ [])
    (hall : ∀ r ∈ windowRows events caseId (now - windowMs),
      r.action = "allow") :
    (recomputeMetrics now events caseId).df = 0 ∧
    0 < (recomputeMetrics now events caseId).af ∧
    (recomputeMetrics now events caseId).bof = 0 := by
  have hn : 0 < ((windowRows events caseId (now - windowMs)).length : ℚ) := by
    have h0 : 0 < (windowRows events caseId (now - windowMs)).length :=
      List.length_pos.mpr hne
    exact_mod_cast h0
  have hdf : (recomputeMetrics now events caseId).df = 0 := by
    unfold recomputeMetrics
    rw [recompute_df, weightedOf_eq_zero hall, zero_div]
  have haf : 0 < (recomputeMetrics now events caseId).af := by
    unfold recomputeMetrics
    rw [recompute_af,
      if_pos (show (0 : ℚ) < systemCapacityRPS by norm_num [systemCapacityRPS])]
    exact div_pos (div_pos hn (by norm_num)) (by norm_num [systemCapacityRPS])
  refine ⟨hdf, haf, ?_⟩
  unfold recomputeMetrics at *
  rw [recompute_bof, if_pos haf, hdf, zero_div]

/-- C6: the aggregation engine's divisions are guarded: `AF` is
`attack_rps / capacity` when the capacity constant is positive and `0`
otherwise, and `BoF` is `DF / AF` when `AF > 0` and `1` otherwise; in
particular on the empty window (`n = 0`) `AF = 0` and hence `BoF = 1`,
so neither is ever produced by a division by zero. -/
theorem division_guards (capacityRPS : ℚ) (now : ℤ)
    (events : List EventRow) (caseId : ℕ) :
    (0 < capacityRPS →
       (recomputeMetricsWith capacityRPS now events caseId).af =
         (recomputeMetricsWith capacityRPS now events caseId).attack_rps /
           capacityRPS) ∧
    (capacityRPS ≤ 0 →
       (recomputeMetricsWith capacityRPS now events caseId).af = 0) ∧
    (0 < (recomputeMetricsWith capacityRPS now events caseId).af →
       (recomputeMetricsWith capacityRPS now events caseId).bof =
         (recomputeMetricsWith capacityRPS now events caseId).df /
           (recomputeMetricsWith capacityRPS now events caseId).af) ∧
    ((recomputeMetricsWith capacityRPS now events caseId).af ≤ 0 →
       (recomputeMetricsWith capacityRPS now events caseId).bof = 1) ∧
    (windowRows events caseId (now - windowMs) = [] →
       (recomputeMetricsWith capacityRPS now events caseId).af = 0 ∧
       (recomputeMetricsWith capacityRPS now events caseId).bof = 1) := by
  refine ⟨fun h => ?_, fun h => ?_, fun h => ?_, fun h => ?_, fun h => ?_⟩
  · rw [recompute_af, if_pos h, recompute_attack_rps]
  · rw [recompute_af, if_neg (not_lt.mpr h)]
  · rw [recompute_bof, if_pos h]
  · rw [recompute_bof, if_neg (not_lt.mpr h)]
  · have haf : (recomputeMetricsWith capacityRPS now events caseId).af = 0 := by
      rw [recompute_af, h]
      simp
    refine ⟨haf, ?_⟩
    rw [recompute_bof, if_neg (by rw [haf]; exact lt_irrefl 0)]

/-- Concrete instantiation of `division_guards` at capacity 500 and the
empty event table: `AF` is the guarded quotient, and on the empty window
`AF = 0` and `BoF = 1`. -/
theorem division_guards_witness :
    (0 : ℚ) < 500 ∧
    (recomputeMetricsWith 500 0 [] 0).af =
      (recomputeMetricsWith 500 0 [] 0).attack_rps / 500 ∧
    (recomputeMetricsWith 500 0 [] 0).af ≤ 0 ∧
    (recomputeMetricsWith 500 0 [] 0).bof = 1 ∧
    ((recomputeMetricsWith 500 0 [] 0).af = 0 ∧
     (recomputeMetricsWith 500 0 [] 0).bof = 1) := by
  have hempty := (division_guards 500 0 [] 0).2.2.2.2 rfl
  exact ⟨by norm_num, (division_guards 500 0 [] 0).1 (by norm_num),
    le_of_eq hempty.1,
    (division_guards 500 0 [] 0).2.2.2.1 (le_of_eq hempty.1), hempty⟩

/-- C7: on the spec's numeric example — a 60-second window of exactly 50
events with mean score 10, of which 30 are blocked and none challenged
or tarpitted — the engine computes `weighted = 30`, `DF = 1/2`,
`attack_rps = 50/60`, `AF = 1/600`, `BoF = 300` and `EF = 80`, and the
materialization trigger fires because `EF ≥ 50`. -/
theorem numeric_example_metrics :
    sampleWindow.length = 50 ∧
    avgScoreOf sampleWindow = 10 ∧
    countAction sampleWindow "block" = 30 ∧
    countAction sampleWindow "challenge" = 0 ∧
    countAction sampleWindow "tarpit" = 0 ∧
    weightedOf sampleWindow = 30 ∧
    (recomputeMetrics 0 sampleWindow 0).df = 1 / 2 ∧
    (recomputeMetrics 0 sampleWindow 0).attack_rps = 50 / 60 ∧
    (recomputeMetrics 0 sampleWindow 0).af = 1 / 600 ∧
    (recomputeMetrics 0 sampleWindow 0).bof = 300 ∧
    (recomputeMetrics 0 sampleWindow 0).ef = 80 ∧
    50 ≤ (recomputeMetrics 0 sampleWindow 0).ef ∧
    shouldMaterialize (recomputeMetrics 0 sampleWindow 0) := by
  have hlen : sampleWindow.length = 50 := rfl
  have hwr : windowRows sampleWindow 0 (0 - windowMs) = sampleWindow := by
    unfold windowRows
    rw [List.filter_eq_self]
    intro r hr
    have hmem : r = blockEvent ∨ r = allowEvent := by
      simpa [sampleWindow, List.mem_append, List.mem_replicate] using hr
    rcases hmem with h | h <;> subst h <;> rfl
  have hcb : countAction sampleWindow "block" = 30 := rfl
  have hcc : countAction sampleWindow "challenge" = 0 := rfl
  have hct : countAction sampleWindow "tarpit" = 0 := rfl
  have hweighted : weightedOf sampleWindow = 30 := by
    unfold weightedOf
    rw [hcb, hcc, hct]
    norm_num
  have hsum : sampleWindow.foldl (fun s r => s + r.score) 0 = 500 := by
    unfold sampleWindow
    rw [List.foldl_append, foldl_score_replicate, foldl_score_replicate]
    norm_num [blockEvent, allowEvent]
  have havg : avgScoreOf sampleWindow = 10 := by
    unfold avgScoreOf
    rw [if_pos (by rw [hlen]; norm_num), hlen, hsum]
    norm_num
  have hdf : (recomputeMetrics 0 sampleWindow 0).df = 1 / 2 := by
    unfold recomputeMetrics
    rw [recompute_df, hwr, hweighted]
    norm_num
  have hrps : (recomputeMetrics 0 sampleWindow 0).attack_rps = 50 / 60 := by
    unfold recomputeMetrics
    rw [recompute_attack_rps, hwr, hlen]
    norm_num
  have haf : (recomputeMetrics 0 sampleWindow 0).af = 1 / 600 := by
    unfold recomputeMetrics
    rw [recompute_af, if_pos (by norm_num [systemCapacityRPS]), hwr, hlen]
    norm_num [systemCapacityRPS]
  have hbof : (recomputeMetrics 0 sampleWindow 0).bof = 300 := by
    unfold recomputeMetrics at haf hdf ⊢
    rw [recompute_bof, if_pos (by rw [haf]; norm_num), haf, hdf]
    norm_num
  have hef : (recomputeMetrics 0 sampleWindow 0).ef = 80 := by
    unfold recomputeMetrics
    rw [recompute_ef, hwr, hlen, havg]
    norm_num [round_eq]
  exact ⟨hlen, havg, hcb, hcc, hct, hweighted, hdf, hrps, haf, hbof, hef,
    by rw [hef]; norm_num, Or.inl (by rw [hef]; norm_num)⟩

/-- C10: every non-empty trailing window whose events are all `allow`
still fires the materialization trigger: `DF = 0` while
`AF = (n/60)/500 > 0`, hence `BoF = 0 < 1`, which satisfies the trigger
condition used by the queue consumer. -/
theorem allow_only_window_triggers (now : ℤ) (events : List EventRow)
    (caseId : ℕ)
    (hne : windowRows events caseId (now - windowMs) ≠ [])
    (hall : ∀ r ∈ windowRows events caseId (now - windowMs),
      r.action = "allow") :
    (recomputeMetrics now events caseId).df = 0 ∧
    (recomputeMetrics now events caseId).attack_rps =
      ((windowRows events caseId (now - windowMs)).length : ℚ) / 60 ∧
    0 < (recomputeMetrics now events caseId).af ∧
    (recomputeMetrics now events caseId).bof = 0 ∧
    (recomputeMetrics now events caseId).bof < 1 ∧
    shouldMaterialize (recomputeMetrics now events caseId) := by
  obtain ⟨hdf, haf, hbof⟩ := allow_window_core now events caseId hne hall
  refine ⟨hdf, ?_, haf, hbof, by rw [hbof]; norm_num,
    Or.inr (Or.inr (by rw [hbof]; norm_num))⟩
  unfold recomputeMetrics
  rw [recompute_attack_rps]

/-- Concrete instantiation of `allow_only_window_triggers`: a window
holding one allowed event has `DF = 0`, positive `AF`, `BoF = 0` and
fires the trigger. -/
theorem allow_only_window_triggers_witness :
    windowRows [allowEvent] 0 (0 - windowMs) ≠ [] ∧
    (∀ r ∈ windowRows [allowEvent] 0 (0 - windowMs), r.action = "allow") ∧
    ((recomputeMetrics 0 [allowEvent] 0).df = 0 ∧
     (recomputeMetrics 0 [allowEvent] 0).attack_rps =
       ((windowRows [allowEvent] 0 (0 - windowMs)).length : ℚ) / 60 ∧
     0 < (recomputeMetrics 0 [allowEvent] 0).af ∧
     (recomputeMetrics 0 [allowEvent] 0).bof = 0 ∧
     (recomputeMetrics 0 [allowEvent] 0).bof < 1 ∧
     shouldMaterialize (recomputeMetrics 0 [allowEvent] 0)) := by
  have hwr1 : windowRows [allowEvent] 0 (0 - windowMs) = [allowEvent] := rfl
  have hne : windowRows [allowEvent] 0 (0 - windowMs) ≠ [] := by
    rw [hwr1]; simp
  have hall : ∀ r ∈ windowRows [allowEvent] 0 (0 - windowMs),
      r.action = "allow" := by
    rw [hwr1]
    intro r hr
    rw [List.mem_singleton.mp hr]
    rfl
  exact ⟨hne, hall, allow_only_window_triggers 0 [allowEvent] 0 hne hall⟩

/-- C8: upserting a case whose key already exists never creates a second
row: the result list arises from the old one by updating only the
`last_seen` field of the row with the found id, so the row count and the
count of rows with that key are unchanged, and the existing id is
returned; when the key does not exist a single new row is appended with
`status = 'OPEN'` and `first_seen = last_seen = e.ts`. -/
theorem upsert_case_idempotent (db : DB) (e : EventMsg) :
    (∀ c, db.cases.find? (fun r => r.key == caseKey e) = some c →
       (upsertCase db e).2 = c.id ∧
       (upsertCase db e).1.cases =
         db.cases.map (fun r =>
           if r.id == c.id then { r with last_seen := e.ts } else r) ∧
       (upsertCase db e).1.cases.length = db.cases.length ∧
       (upsertCase db e).1.cases.countP (fun r => r.key == caseKey e) =
         db.cases.countP (fun r => r.key == caseKey e) ∧
       (upsertCase db e).1.events = db.events) ∧
    (db.cases.find? (fun r => r.key == caseKey e) = none →
       (upsertCase db e).1.cases = db.cases ++ [newCaseRow db.nextId e] ∧
       (upsertCase db e).2 = db.nextId ∧
       (newCaseRow db.nextId e).status = "OPEN" ∧
       (newCaseRow db.nextId e).first_seen = e.ts ∧
       (newCaseRow db.nextId e).last_seen = e.ts) := by
  constructor
  · intro c h
    have e1 : upsertCase db e =
        ({ db with
            cases := db.cases.map (fun r =>
              if r.id == c.id then { r with last_seen := e.ts } else r) },
          c.id) := by
      unfold upsertCase
      rw [h]
    rw [e1]
    refine ⟨rfl, rfl, List.length_map _ _, ?_, rfl⟩
    rw [List.countP_map]
    refine List.countP_congr ?_
    intro r _
    by_cases hid : (r.id == c.id) = true <;> simp [hid, Function.comp]
  · intro h
    have e2 : upsertCase db e =
        ({ db with
            cases := db.cases ++ [newCaseRow db.nextId e],
            nextId := db.nextId + 1 },
          db.nextId) := by
      unfold upsertCase
      rw [h]
    rw [e2]
    exact ⟨rfl, rfl, rfl, rfl, rfl⟩

/-- Concrete instantiation of `upsert_case_idempotent`: on a database
already holding the case of `msgA` the upsert returns the existing id
and keeps the row count at 1; on the empty database it appends the new
`OPEN` row. -/
theorem upsert_case_idempotent_witness :
    sampleDB.cases.find? (fun r => r.key == caseKey msgA) =
      some (newCaseRow 0 msgA) ∧
    (upsertCase sampleDB msgA).2 = (newCaseRow 0 msgA).id ∧
    (upsertCase sampleDB msgA).1.cases.length = sampleDB.cases.length ∧
    emptyDB.cases.find? (fun r => r.key == caseKey msgA) = none ∧
    (upsertCase emptyDB msgA).1.cases =
      emptyDB.cases ++ [newCaseRow emptyDB.nextId msgA] := by
  have h1 : sampleDB.cases.find? (fun r => r.key == caseKey msgA) =
      some (newCaseRow 0 msgA) := rfl
  have h2 : emptyDB.cases.find? (fun r => r.key == caseKey msgA) = none := rfl
  exact ⟨h1, ((upsert_case_idempotent sampleDB msgA).1 _ h1).1,
    ((upsert_case_idempotent sampleDB msgA).1 _ h1).2.2.1,
    h2, ((upsert_case_idempotent emptyDB msgA).2 h2).1⟩

/-- C5: after each ingested event the recomputed metrics trigger
materialization iff `EF ≥ 50 ∨ AF ≥ 1 ∨ BoF < 1`; when the trigger
fires, the owning case's `last_seen`, `status = 'OPEN'` and every metric
and report field are set together in the one list update standing for
the single SQL `UPDATE`, other rows being untouched; when it does not
fire, the recompute step leaves the whole database exactly as the
upsert-and-insert left it. -/
theorem materialization_trigger (abuseFn : String → Metrics → String)
    (s504Fn : Metrics → String) (now : ℤ) (db : DB) (e : EventMsg) :
    (processMessage abuseFn s504Fn now db e).events =
      (dbAfterInsert db e).events ∧
    (¬ shouldMaterialize (ingestedMetrics now db e) →
       processMessage abuseFn s504Fn now db e = dbAfterInsert db e) ∧
    (shouldMaterialize (ingestedMetrics now db e) →
       (processMessage abuseFn s504Fn now db e).cases =
         (dbAfterInsert db e).cases.map (fun r =>
           if r.id == (upsertCase db e).2 then
             { r with
                 last_seen := now, status := "OPEN",
                 attack_rps := (ingestedMetrics now db e).attack_rps,
                 est_bandwidth_mbps := (ingestedMetrics now db e).bandwidth_mbps,
                 system_capacity_rps := (ingestedMetrics now db e).capacity_rps,
                 af := (ingestedMetrics now db e).af,
                 df := (ingestedMetrics now db e).df,
                 bof := (ingestedMetrics now db e).bof,
                 evidence_count := (ingestedMetrics now db e).ef,
                 mercy := (ingestedMetrics now db e).mercy,
                 justice := (ingestedMetrics now db e).justice,
                 abuse_report := some (abuseFn e.zone (ingestedMetrics now db e)),
                 section504_draft := some (s504Fn (ingestedMetrics now db e)) }
           else r)) := by
  unfold ingestedMetrics
  refine ⟨?_, fun h => ?_, fun h => ?_⟩
  · unfold processMessage
    by_cases h : shouldMaterialize
        (recomputeMetrics now (dbAfterInsert db e).events (upsertCase db e).2) <;>
      simp [h]
  · unfold processMessage
    simp [h]
  · unfold processMessage
    simp [h]

/-- Concrete instantiation of `materialization_trigger`: ingesting
`msgA` into the empty database fires the trigger (its one-event window
has `BoF = 0 < 1`), so the case list is the mapped snapshot update. -/
theorem materialization_trigger_witness :
    shouldMaterialize (ingestedMetrics 0 emptyDB msgA) ∧
    (processMessage (fun _ _ => "") (fun _ => "") 0 emptyDB msgA).cases =
      (dbAfterInsert emptyDB msgA).cases.map (fun r =>
        if r.id == (upsertCase emptyDB msgA).2 then
          { r with
              last_seen := 0, status := "OPEN",
              attack_rps := (ingestedMetrics 0 emptyDB msgA).attack_rps,
              est_bandwidth_mbps := (ingestedMetrics 0 emptyDB msgA).bandwidth_mbps,
              system_capacity_rps := (ingestedMetrics 0 emptyDB msgA).capacity_rps,
              af := (ingestedMetrics 0 emptyDB msgA).af,
              df := (ingestedMetrics 0 emptyDB msgA).df,
              bof := (ingestedMetrics 0 emptyDB msgA).bof,
              evidence_count := (ingestedMetrics 0 emptyDB msgA).ef,
              mercy := (ingestedMetrics 0 emptyDB msgA).mercy,
              justice := (ingestedMetrics 0 emptyDB msgA).justice,
              abuse_report := some "",
              section504_draft := some "" }
        else r) := by
  have hwr2 : windowRows (dbAfterInsert emptyDB msgA).events
      (upsertCase emptyDB msgA).2 (0 - windowMs) = [eventRowOf 0 msgA] := rfl
  have hne : windowRows (dbAfterInsert emptyDB msgA).events
      (upsertCase emptyDB msgA).2 (0 - windowMs) ≠ [] := by
    rw [hwr2]; simp
  have hall : ∀ r ∈ windowRows (dbAfterInsert emptyDB msgA).events
      (upsertCase emptyDB msgA).2 (0 - windowMs), r.action = "allow" := by
    rw [hwr2]
    intro r hr
    rw [List.mem_singleton.mp hr]
    rfl
  have htrig : shouldMaterialize (ingestedMetrics 0 emptyDB msgA) := by
    unfold ingestedMetrics
    exact Or.inr (Or.inr (by
      rw [(allow_window_core 0 (dbAfterInsert emptyDB msgA).events
        (upsertCase emptyDB msgA).2 hne hall).2.2]
      norm_num))
  exact ⟨htrig,
    (materialization_trigger (fun _ _ => "") (fun _ => "") 0 emptyDB msgA).2.2
      htrig⟩

lemma queueHandlerAux_trace (abuseFn : String → Metrics → String)
    (s504Fn : Metrics → String) (now : ℤ) (msgs : List EventMsg) :
    ∀ (i : ℕ) (db : DB),
      (queueHandlerAux abuseFn s504Fn now db i msgs).2 =
        ackPattern i msgs.length := by
  induction msgs with
  | nil => intro i db; rfl
  | cons e rest ih =>
      intro i db
      simp only [queueHandlerAux, ackPattern, List.length_cons]
      rw [ih]

/-- C9 (amended): the queue consumer acknowledges each message
individually inside the loop, immediately after that message's own
upsert/insert/recompute processing: the batch's observable trace is
`process 0, ack 0, process 1, ack 1, …`, so earlier messages are acked
before later messages are even processed. -/
theorem per_message_ack (abuseFn : String → Metrics → String)
    (s504Fn : Metrics → String) (now : ℤ) (db : DB)
    (msgs : List EventMsg) :
    (queueHandler abuseFn s504Fn now db msgs).2 =
      ackPattern 0 msgs.length :=
  queueHandlerAux_trace abuseFn s504Fn now msgs 0 db

/-- C9 counterexample: on the concrete two-message batch `[msgA, msgB]`
the trace interleaves acknowledgment with processing — `ack 0` occurs at
position 1, strictly before `process 1` at position 2 — refuting the
claim that no message is acknowledged individually before the loop over
all messages finishes. -/
theorem batch_level_ack_refuted :
    (queueHandler (fun _ _ => "") (fun _ => "") 0 emptyDB [msgA, msgB]).2 =
      [QAct.process 0, QAct.ack 0, QAct.process 1, QAct.ack 1] ∧
    ((queueHandler (fun _ _ => "") (fun _ => "") 0 emptyDB
        [msgA, msgB]).2)[1]? = some (QAct.ack 0) ∧
    ((queueHandler (fun _ _ => "") (fun _ => "") 0 emptyDB
        [msgA, msgB]).2)[2]? = some (QAct.process 1) :=
  ⟨rfl, rfl, rfl⟩

end DivineCourt
